import Mathlib

/-!
Shallow embedding of the ST7789V display driver (src/src/lib.rs) and
verification of its specification claims.

The driver is modelled as a pure trace semantics: every driver operation is a
function from the driver state (`Dev`) and its arguments to the list of
pin-transition / bus-write events (`Ev`) it performs, or to an
`Except Error (List Ev)` when the operation can fail with a driver error.
Pin and bus transports are modelled as infallible (the `Pin`/`Spi` error
variants wrap transport errors that are external to the driver logic), so the
traces below are the event sequences of a run in which every transport call
succeeds.  `u16` values are modelled as `Nat` with explicit `% 65536`
wraparound where the Rust code wraps.
-/

namespace ST7789V

/-- Rotation setting (src/src/lib.rs, enum `Rotate`). -/
inductive Rotate
  | Rotate0
  | Rotate90
  | Rotate180
  | Rotate270
deriving DecidableEq

/-- Modelled from the spec: the crate module `command` (`crate::command::Command`,
pulled in by src/src/lib.rs via `use crate::command::Command`) is not present under
src/.  Spec §4.1 (CommandTable) describes it as a static mapping from a symbolic
command identifier to its one-byte opcode.  Constructors cover the commands that
lib.rs uses in the operations modelled here. -/
inductive Command
  | SLPOUT
  | INVON
  | DISPON
  | CASET
  | RASET
  | RAMWR
  | MADCTL
  | COLMOD
  | GCTRL
  | VCOMS
  | LCMCTRL
  | VDVVRHEN
  | VRHS
  | VDVS
  | FRCTRL2
  | PWCTRL1
  | E0
  | E1
deriving DecidableEq

/-- Modelled from the spec: opcode byte of each symbolic command (spec §4.1,
"static mapping from a symbolic command identifier to its one-byte opcode");
the byte values are the ST7789V datasheet opcodes. -/
def Command.value : Command → Nat
  | .SLPOUT => 0x11
  | .INVON => 0x21
  | .DISPON => 0x29
  | .CASET => 0x2A
  | .RASET => 0x2B
  | .RAMWR => 0x2C
  | .MADCTL => 0x36
  | .COLMOD => 0x3A
  | .GCTRL => 0xB7
  | .VCOMS => 0xBB
  | .LCMCTRL => 0xC0
  | .VDVVRHEN => 0xC2
  | .VRHS => 0xC3
  | .VDVS => 0xC4
  | .FRCTRL2 => 0xC6
  | .PWCTRL1 => 0xD0
  | .E0 => 0xE0
  | .E1 => 0xE1

/-- Color Order (RGB) (src/src/lib.rs, enum `ColorOrder`). -/
inductive ColorOrder
  | Rgb
  | Bgr
deriving DecidableEq

/-- Register bits of `ColorOrder` (src/src/lib.rs lines 118-127). -/
def ColorOrder.value : ColorOrder → Nat
  | .Rgb => 0x00
  | .Bgr => 0x08

/-- Display Data Latch Order (MH) (src/src/lib.rs, enum `LatchOrder`). -/
inductive LatchOrder
  | LeftToRight
  | RightToLeft
deriving DecidableEq

/-- Register bits of `LatchOrder` (src/src/lib.rs lines 130-139). -/
def LatchOrder.value : LatchOrder → Nat
  | .LeftToRight => 0x00
  | .RightToLeft => 0x04

/-- Line Address Order (ML) (src/src/lib.rs, enum `LineAddressOrder`). -/
inductive LineAddressOrder
  | TopToBottom
  | BottomToTop
deriving DecidableEq

/-- Register bits of `LineAddressOrder` (src/src/lib.rs lines 106-115). -/
def LineAddressOrder.value : LineAddressOrder → Nat
  | .TopToBottom => 0x00
  | .BottomToTop => 0x10

/-- Page Address Order (MY) (src/src/lib.rs, enum `PageAddressOrder`). -/
inductive PageAddressOrder
  | TopToBottom
  | BottomToTop
deriving DecidableEq

/-- Register bits of `PageAddressOrder` (src/src/lib.rs lines 70-79). -/
def PageAddressOrder.value : PageAddressOrder → Nat
  | .TopToBottom => 0x00
  | .BottomToTop => 0x80

/-- Page/Column Order (MV) (src/src/lib.rs, enum `PageColumnOrder`). -/
inductive PageColumnOrder
  | NormalMode
  | ReverseMode
deriving DecidableEq

/-- Register bits of `PageColumnOrder` (src/src/lib.rs lines 94-103). -/
def PageColumnOrder.value : PageColumnOrder → Nat
  | .NormalMode => 0x00
  | .ReverseMode => 0x20

/-- Column Address Order (MX) (src/src/lib.rs, enum `ColumnAddressOrder`). -/
inductive ColumnAddressOrder
  | RightToLeft
  | LeftToRight
deriving DecidableEq

/-- Register bits of `ColumnAddressOrder` (src/src/lib.rs lines 82-91). -/
def ColumnAddressOrder.value : ColumnAddressOrder → Nat
  | .RightToLeft => 0x00
  | .LeftToRight => 0x40

/-- Memory Access Control Config (src/src/lib.rs, struct `MemAccCtrlConfig`). -/
structure MemAccCtrlConfig where
  color_order : ColorOrder
  latch_order : LatchOrder
  line_order : LineAddressOrder
  page_order : PageAddressOrder
  page_column_order : PageColumnOrder
  column_order : ColumnAddressOrder
deriving DecidableEq

/-- `MemAccCtrlConfig::default` (src/src/lib.rs lines 191-201). -/
def MemAccCtrlConfig.default : MemAccCtrlConfig :=
  { color_order := .Rgb
    latch_order := .RightToLeft
    line_order := .TopToBottom
    page_order := .BottomToTop
    page_column_order := .ReverseMode
    column_order := .RightToLeft }

/-- `MemAccCtrlConfig::rotate_0` (src/src/lib.rs lines 203-212). -/
def MemAccCtrlConfig.rotate_0 : MemAccCtrlConfig :=
  { color_order := .Rgb
    latch_order := .LeftToRight
    line_order := .TopToBottom
    page_order := .TopToBottom
    page_column_order := .NormalMode
    column_order := .RightToLeft }

/-- `MemAccCtrlConfig::value` (src/src/lib.rs lines 277-285): bitwise OR of the
six field values. -/
def MemAccCtrlConfig.value (c : MemAccCtrlConfig) : Nat :=
  c.color_order.value
    ||| c.latch_order.value
    ||| c.line_order.value
    ||| c.page_order.value
    ||| c.page_column_order.value
    ||| c.column_order.value

/-- Driver errors (src/src/lib.rs, enum `Error`).  `Pin` and `Spi` wrap
transport errors; the transports are modelled as infallible here, so these two
variants are never produced by the model. -/
inductive Error
  | InvalidColumnAddress
  | InvalidRowAddress
  | Pin
  | Spi
deriving DecidableEq

/-- Observable events of a driver run: control-pin transitions, blocking
delays, and bus writes (one event per `spi.write` call, carrying the bytes of
that call). -/
inductive Ev
  | csLow
  | csHigh
  | dcLow
  | dcHigh
  | rstLow
  | rstHigh
  | delayMs (ms : Nat)
  | busWrite (bytes : List Nat)
deriving DecidableEq

/-- Driver state relevant to the modelled operations (src/src/lib.rs, struct
`ST7789V`): whether a chip-select pin is owned (`cfg.cs.is_some()`), the stored
rotation, and the panel width/height (u16 values). -/
structure Dev where
  csOwned : Bool
  rotate : Rotate
  width : Nat
  height : Nat
deriving DecidableEq

/-- Events of `if let Some(cs) = self.cfg.cs.as_mut() { cs.set_low() }`. -/
def csLowIfOwned (d : Dev) : List Ev :=
  if d.csOwned then [Ev.csLow] else []

/-- Events of `if let Some(cs) = self.cfg.cs.as_mut() { cs.set_high() }`. -/
def csHighIfOwned (d : Dev) : List Ev :=
  if d.csOwned then [Ev.csHigh] else []

/-- Truncation to u16, modelling Rust `u16` wraparound. -/
def u16 (n : Nat) : Nat := n % 65536

/-- Rust `u16::wrapping_sub`. -/
def wrappingSub (a b : Nat) : Nat :=
  (a % 65536 + 65536 - b % 65536) % 65536

/-- Rust `u16::to_be_bytes`: big-endian high byte then low byte. -/
def toBeBytes (c : Nat) : List Nat :=
  [c >>> 8, c &&& 0xFF]

/-- `ST7789V::command` (src/src/lib.rs lines 874-897): chip-select low (if
owned), data/command low, one bus write of the opcode byte; then, if a
parameter slice is present, chip-select low again (if owned), data/command
high, one bus write of the parameter bytes, chip-select high (if owned). -/
def command (d : Dev) (cmd : Command) (params : Option (List Nat)) : List Ev :=
  csLowIfOwned d ++ [Ev.dcLow, Ev.busWrite [cmd.value]] ++
    (match params with
     | none => []
     | some ps => csLowIfOwned d ++ [Ev.dcHigh, Ev.busWrite ps] ++ csHighIfOwned d)

/-- `ST7789V::data` (src/src/lib.rs lines 899-902): one raw bus write. -/
def data (bs : List Nat) : List Ev :=
  [Ev.busWrite bs]

/-- `ST7789V::column_address` (src/src/lib.rs lines 674-694). -/
def column_address (d : Dev) (xs xe : Nat) : List Ev :=
  command d .CASET
    (some [xs >>> 8, xs &&& 0xFF,
           wrappingSub xe 1 >>> 8, wrappingSub xe 1 &&& 0xFF])

/-- `ST7789V::row_address` (src/src/lib.rs lines 701-721). -/
def row_address (d : Dev) (rs re : Nat) : List Ev :=
  command d .RASET
    (some [rs >>> 8, rs &&& 0xFF,
           wrappingSub re 1 >>> 8, wrappingSub re 1 &&& 0xFF])

/-- `ST7789V::address_window` (src/src/lib.rs lines 724-738). -/
def address_window (d : Dev) (xs rs xe re : Nat) : Except Error (List Ev) :=
  if xs > xe ∨ rs > re then
    Except.error Error.InvalidColumnAddress
  else
    Except.ok (column_address d xs xe ++ row_address d rs re ++ command d .RAMWR none)

/-- `ST7789V::transfer_x_y` (src/src/lib.rs lines 778-798). -/
def transfer_x_y (d : Dev) (x y : Nat) : Nat × Nat :=
  match d.rotate with
  | .Rotate90 => (wrappingSub d.width x, y)
  | .Rotate180 => (x, wrappingSub d.height y)
  | .Rotate270 => (wrappingSub d.width x, wrappingSub d.height y)
  | .Rotate0 => (x, y)

/-- `ST7789V::mem_write` (src/src/lib.rs lines 801-805). -/
def mem_write (d : Dev) (bs : List Nat) : List Ev :=
  command d .RAMWR (some bs)

/-- `ST7789V::pixel` (src/src/lib.rs lines 808-819): transform the coordinate,
set the address window with end = start on both axes, then memory-write the two
big-endian color bytes. -/
def pixel (d : Dev) (x y color : Nat) : Except Error (List Ev) := do
  let start_x := (transfer_x_y d x y).1
  let start_y := (transfer_x_y d x y).2
  let w ← address_window d start_x start_y start_x start_y
  pure (w ++ mem_write d (toBeBytes color))

/-- Fuel-driven core of Rust `slice::chunks`: `chunksGo fuel l n` splits `l`
into consecutive blocks of `n` elements (last block possibly shorter).  The
fuel is structural so that the definition computes by kernel reduction;
`chunksList` supplies sufficient fuel.  For `n = 0` the result is `[]`
(Rust `chunks(0)` panics; theorems about that case carry a `n ≠ 0`
hypothesis). -/
def chunksGo : Nat → List Nat → Nat → List (List Nat)
  | _, [], _ => []
  | 0, _, _ => []
  | fuel + 1, l, n =>
    if n = 0 then [] else l.take n :: chunksGo fuel (l.drop n) n

/-- Rust `slice::chunks(n)` collected into a list. -/
def chunksList (l : List Nat) (n : Nat) : List (List Nat) :=
  chunksGo l.length l n

/-- `ST7789V::pixels` (src/src/lib.rs lines 821-872): transform both corners,
normalize to min/max per axis, set the address window, issue a zero-length
memory write, re-assert chip-select low (if owned) and data/command high,
serialize the colors big-endian, reverse the `width * width`-byte chunks of the
byte buffer (u16 multiplication wraps), and stream the result in 4096-byte bus
writes, finally raising chip-select (if owned). -/
def pixels (d : Dev) (xs ys xe ye : Nat) (colors : List Nat) :
    Except Error (List Ev) :=
  let start_x := (transfer_x_y d xs ys).1
  let start_y := (transfer_x_y d xs ys).2
  let end_x := (transfer_x_y d xe ye).1
  let end_y := (transfer_x_y d xe ye).2
  let min_x := if start_x > end_x then end_x else start_x
  let max_x := if start_x > end_x then start_x else end_x
  let min_y := if start_y > end_y then end_y else start_y
  let max_y := if start_y > end_y then start_y else end_y
  match address_window d min_x min_y max_x max_y with
  | Except.error e => Except.error e
  | Except.ok w =>
    let colors_vec := (colors.map toBeBytes).flatten
    let reversed_chunks := (chunksList colors_vec (u16 (d.width * d.width))).reverse
    let merged_data := reversed_chunks.flatten
    Except.ok (w ++ mem_write d [] ++ csLowIfOwned d ++ [Ev.dcHigh]
      ++ (chunksList merged_data 4096).map Ev.busWrite
      ++ csHighIfOwned d)

/-- `ST7789V::hard_reset` (src/src/lib.rs lines 741-759). -/
def hard_reset (d : Dev) : List Ev :=
  csHighIfOwned d ++
    [Ev.delayMs 1, Ev.rstLow, Ev.delayMs 1, Ev.rstHigh, Ev.delayMs 120]

/-- The fixed command/parameter sequence of `ST7789V::init` after the initial
`MADCTL` write (src/src/lib.rs lines 431-486). -/
def init_rest (d : Dev) : List Ev :=
  command d .COLMOD (some [0x05])
    ++ command d .INVON none
    ++ command d .CASET none
    ++ data [0x00] ++ data [0x00] ++ data [0x01] ++ data [0x3f]
    ++ command d .RASET none
    ++ data [0x00] ++ data [0x00] ++ data [0x00] ++ data [0x33] ++ data [0x33]
    ++ command d .GCTRL (some [0x35])
    ++ command d .VCOMS (some [0x1f])
    ++ command d .LCMCTRL (some [0x2c])
    ++ command d .VDVVRHEN (some [0x01])
    ++ command d .VRHS (some [0x12])
    ++ command d .VDVS (some [0x20])
    ++ command d .FRCTRL2 (some [0x0f])
    ++ command d .PWCTRL1 none
    ++ data [0xa4] ++ data [0xa1]
    ++ command d .E0 none
    ++ data [0xD0] ++ data [0x08] ++ data [0x11] ++ data [0x08]
    ++ data [0x0c] ++ data [0x15] ++ data [0x39] ++ data [0x33]
    ++ data [0x50] ++ data [0x36] ++ data [0x13] ++ data [0x14]
    ++ data [0x29] ++ data [0x2d]
    ++ command d .E1 none
    ++ data [0xd0] ++ data [0x08] ++ data [0x10] ++ data [0x08]
    ++ data [0x06] ++ data [0x06] ++ data [0x39] ++ data [0x44]
    ++ data [0x51] ++ data [0x0b] ++ data [0x16] ++ data [0x14]
    ++ data [0x2f] ++ data [0x31]
    ++ command d .INVON none
    ++ command d .SLPOUT none
    ++ command d .DISPON none

/-- `ST7789V::init` (src/src/lib.rs lines 425-488): hard reset, the `MADCTL`
write with parameter byte 0x00, then the rest of the fixed sequence. -/
def init (d : Dev) : List Ev :=
  hard_reset d ++ command d .MADCTL (some [0x00]) ++ init_rest d

/-- Bytes of the bus-write events of a trace, in order (one entry per
`spi.write` call). -/
def busWritesOf (t : List Ev) : List (List Nat) :=
  t.filterMap fun e =>
    match e with
    | .busWrite bs => some bs
    | _ => none

/-- The events of a trace that occur strictly after its last data/command-high
transition.  In a `pixels` trace these are exactly the payload bus writes
followed by the final chip-select-high (if owned). -/
def afterLastDcHigh (t : List Ev) : List Ev :=
  (t.reverse.takeWhile fun e => decide (e ≠ Ev.dcHigh)).reverse

/-- The byte stream `merged_data` that `pixels` sends as its payload: the
big-endian serialization of the colors with its `width * width`-byte chunks
(u16 multiplication wraps) in reversed order. -/
def mergedBytes (d : Dev) (colors : List Nat) : List Nat :=
  ((chunksList ((colors.map toBeBytes).flatten) (u16 (d.width * d.width))).reverse).flatten

/-- Concatenated payload bytes of a fallible trace: the bytes of the bus
writes after the last data/command-high transition, or `none` on error. -/
def payloadFlat (r : Except Error (List Ev)) : Option (List Nat) :=
  match r with
  | .ok t => some ((busWritesOf (afterLastDcHigh t)).flatten)
  | .error _ => none

/-! ## Helper lemmas -/

theorem wrappingSub_one (e : Nat) (he : e < 65536) :
    wrappingSub e 1 = (e + 65536 - 1) % 65536 := by
  unfold wrappingSub
  omega

theorem wrappingSub_of_le {w x : Nat} (hw : w < 65536) (hx : x ≤ w) :
    wrappingSub w x = w - x := by
  unfold wrappingSub
  omega

theorem chunksGo_flatten :
    ∀ (fuel : Nat) (l : List Nat) (n : Nat),
      l.length ≤ fuel → n ≠ 0 → (chunksGo fuel l n).flatten = l := by
  intro fuel
  induction fuel with
  | zero =>
    intro l n hl _
    have : l = [] := List.eq_nil_of_length_eq_zero (Nat.le_zero.mp hl)
    subst this
    rfl
  | succ fuel ih =>
    intro l n hl hn
    cases l with
    | nil => rfl
    | cons a l' =>
      simp only [chunksGo, if_neg hn, List.flatten_cons]
      rw [ih ((a :: l').drop n) n
        (by simp only [List.length_drop, List.length_cons] at hl ⊢; omega) hn]
      exact List.take_append_drop n (a :: l')

theorem chunksList_flatten (l : List Nat) (n : Nat) (hn : n ≠ 0) :
    (chunksList l n).flatten = l :=
  chunksGo_flatten l.length l n le_rfl hn

theorem chunksGo_length_4096 :
    ∀ (fuel : Nat) (l : List Nat),
      l.length ≤ fuel → (chunksGo fuel l 4096).length = (l.length + 4095) / 4096 := by
  intro fuel
  induction fuel with
  | zero =>
    intro l hl
    have : l = [] := List.eq_nil_of_length_eq_zero (Nat.le_zero.mp hl)
    subst this
    rfl
  | succ fuel ih =>
    intro l hl
    cases l with
    | nil => rfl
    | cons a l' =>
      simp only [chunksGo, if_neg (by omega : (4096 : Nat) ≠ 0), List.length_cons]
      rw [ih ((a :: l').drop 4096)
        (by simp only [List.length_drop, List.length_cons] at hl ⊢; omega)]
      simp only [List.length_drop, List.length_cons]
      omega

theorem chunksList_length_4096 (l : List Nat) :
    (chunksList l 4096).length = (l.length + 4095) / 4096 :=
  chunksGo_length_4096 l.length l le_rfl

theorem flatten_reverse_length (L : List (List Nat)) :
    L.reverse.flatten.length = L.flatten.length := by
  rw [List.length_flatten, List.length_flatten, List.map_reverse, List.sum_reverse]

theorem flatten_map_toBeBytes_length (colors : List Nat) :
    ((colors.map toBeBytes).flatten).length = 2 * colors.length := by
  induction colors with
  | nil => rfl
  | cons c cs ih =>
    simp only [List.map_cons, List.flatten_cons, List.length_append, ih,
      List.length_cons, toBeBytes]
    simp
    omega

theorem mergedBytes_length (d : Dev) (colors : List Nat)
    (hw : u16 (d.width * d.width) ≠ 0) :
    (mergedBytes d colors).length = 2 * colors.length := by
  unfold mergedBytes
  rw [flatten_reverse_length, chunksList_flatten _ _ hw, flatten_map_toBeBytes_length]

theorem takeWhile_append_of_forall {p : Ev → Bool} :
    ∀ (l : List Ev) (y : Ev) (r : List Ev),
      (∀ x ∈ l, p x = true) → p y = false → (l ++ y :: r).takeWhile p = l := by
  intro l
  induction l with
  | nil =>
    intro y r _ hy
    simp [List.takeWhile, hy]
  | cons a l' ih =>
    intro y r hl hy
    have ha : p a = true := hl a (by simp)
    have ih2 := ih y r (fun x hx => hl x (by simp [hx])) hy
    simp only [List.cons_append, List.takeWhile_cons, ha, if_true]
    rw [ih2]

theorem afterLastDcHigh_append (a b : List Ev) (hb : Ev.dcHigh ∉ b) :
    afterLastDcHigh (a ++ Ev.dcHigh :: b) = b := by
  unfold afterLastDcHigh
  rw [List.reverse_append, List.reverse_cons, List.append_assoc,
    List.singleton_append,
    takeWhile_append_of_forall b.reverse Ev.dcHigh a.reverse
      (by
        intro x hx
        have hxb : x ∈ b := List.mem_reverse.mp hx
        have : x ≠ Ev.dcHigh := fun hEq => hb (hEq ▸ hxb)
        simp [this])
      (by simp),
    List.reverse_reverse]

theorem busWritesOf_append (a b : List Ev) :
    busWritesOf (a ++ b) = busWritesOf a ++ busWritesOf b :=
  List.filterMap_append a b _

theorem busWritesOf_map_busWrite (L : List (List Nat)) :
    busWritesOf (L.map Ev.busWrite) = L := by
  induction L with
  | nil => rfl
  | cons x L' ih => simp [busWritesOf] at ih ⊢; exact ih

theorem busWritesOf_csHighIfOwned (d : Dev) :
    busWritesOf (csHighIfOwned d) = [] := by
  cases hc : d.csOwned <;> simp [csHighIfOwned, hc, busWritesOf]

theorem dcHigh_not_mem_payload (L : List (List Nat)) (d : Dev) :
    Ev.dcHigh ∉ (L.map Ev.busWrite ++ csHighIfOwned d) := by
  intro h
  rcases List.mem_append.mp h with h1 | h2
  · obtain ⟨bs, _, hEq⟩ := List.mem_map.mp h1
    exact Ev.noConfusion hEq
  · cases hc : d.csOwned <;> simp [csHighIfOwned, hc] at h2

theorem address_window_ok (d : Dev) {xs rs xe re : Nat}
    (h1 : xs ≤ xe) (h2 : rs ≤ re) :
    address_window d xs rs xe re
      = Except.ok (column_address d xs xe ++ row_address d rs re
          ++ command d .RAMWR none) := by
  unfold address_window
  rw [if_neg (by omega)]

theorem pixels_ok (d : Dev) (xs ys xe ye : Nat) (colors : List Nat) :
    ∃ w, pixels d xs ys xe ye colors
      = Except.ok (w ++ mem_write d [] ++ csLowIfOwned d ++ [Ev.dcHigh]
          ++ (chunksList (mergedBytes d colors) 4096).map Ev.busWrite
          ++ csHighIfOwned d) := by
  unfold pixels mergedBytes
  dsimp only
  have hx : (if (transfer_x_y d xs ys).1 > (transfer_x_y d xe ye).1
        then (transfer_x_y d xe ye).1 else (transfer_x_y d xs ys).1)
      ≤ (if (transfer_x_y d xs ys).1 > (transfer_x_y d xe ye).1
        then (transfer_x_y d xs ys).1 else (transfer_x_y d xe ye).1) := by
    split <;> omega
  have hy : (if (transfer_x_y d xs ys).2 > (transfer_x_y d xe ye).2
        then (transfer_x_y d xe ye).2 else (transfer_x_y d xs ys).2)
      ≤ (if (transfer_x_y d xs ys).2 > (transfer_x_y d xe ye).2
        then (transfer_x_y d xs ys).2 else (transfer_x_y d xe ye).2) := by
    split <;> omega
  rw [address_window_ok d hx hy]
  exact ⟨_, rfl⟩

theorem pixels_payload (d : Dev) (xs ys xe ye : Nat) (colors : List Nat) :
    ∃ t, pixels d xs ys xe ye colors = Except.ok t
      ∧ busWritesOf (afterLastDcHigh t) = chunksList (mergedBytes d colors) 4096 := by
  obtain ⟨w, hw⟩ := pixels_ok d xs ys xe ye colors
  refine ⟨_, hw, ?_⟩
  have hsplit :
      w ++ mem_write d [] ++ csLowIfOwned d ++ [Ev.dcHigh]
          ++ (chunksList (mergedBytes d colors) 4096).map Ev.busWrite
          ++ csHighIfOwned d
        = (w ++ mem_write d [] ++ csLowIfOwned d)
            ++ Ev.dcHigh
              :: ((chunksList (mergedBytes d colors) 4096).map Ev.busWrite
                  ++ csHighIfOwned d) := by
    simp [List.append_assoc]
  rw [hsplit, afterLastDcHigh_append _ _ (dcHigh_not_mem_payload _ d),
    busWritesOf_append, busWritesOf_map_busWrite, busWritesOf_csHighIfOwned,
    List.append_nil]

/-! ## Claim theorems -/

/-- Claim C1, amended: range validation lives only in `address_window` — when
either range has start > end it emits no events and returns
`InvalidColumnAddress` (for row violations as well, since the code returns
that variant for both axes); the per-axis operations `column_address` and
`row_address` perform no validation and emit their opcode byte and four
parameter bytes over the bus for any arguments. -/
theorem address_window_validation (d : Dev) (xs rs xe re : Nat)
    (h : xs > xe ∨ rs > re) :
    address_window d xs rs xe re = Except.error Error.InvalidColumnAddress
    ∧ busWritesOf (column_address d xs xe)
        = [[Command.CASET.value],
           [xs >>> 8, xs &&& 0xFF, wrappingSub xe 1 >>> 8, wrappingSub xe 1 &&& 0xFF]]
    ∧ busWritesOf (row_address d rs re)
        = [[Command.RASET.value],
           [rs >>> 8, rs &&& 0xFF, wrappingSub re 1 >>> 8, wrappingSub re 1 &&& 0xFF]] := by
  refine ⟨?_, ?_, ?_⟩
  · unfold address_window
    rw [if_pos h]
  · cases hc : d.csOwned <;>
      simp [column_address, command, busWritesOf, csLowIfOwned, csHighIfOwned, hc]
  · cases hc : d.csOwned <;>
      simp [row_address, command, busWritesOf, csLowIfOwned, csHighIfOwned, hc]

/-- Witness for C1's amended theorem at the concrete input xs = 5 > xe = 3. -/
theorem address_window_validation_witness :
    address_window ⟨false, Rotate.Rotate0, 240, 320⟩ 5 0 3 0
      = Except.error Error.InvalidColumnAddress :=
  (address_window_validation ⟨false, Rotate.Rotate0, 240, 320⟩ 5 0 3 0
    (Or.inl (by decide))).1

/-- Claim C1 counterexample: `column_address(5, 3)` (start > end) emits an
opcode byte and four parameter bytes over the bus and signals no error, where
the claim requires zero bus bytes and an invalid-address error; and
`address_window` with only a row violation (rs = 5 > re = 3) returns
`InvalidColumnAddress`, not the `InvalidRowAddress` the claim requires. -/
theorem range_validation_cex :
    column_address ⟨false, Rotate.Rotate0, 240, 320⟩ 5 3
      = [Ev.dcLow, Ev.busWrite [0x2A], Ev.dcHigh, Ev.busWrite [0, 5, 0, 2]]
    ∧ address_window ⟨false, Rotate.Rotate0, 240, 320⟩ 0 5 0 3
        = Except.error Error.InvalidColumnAddress
    ∧ Error.InvalidColumnAddress ≠ Error.InvalidRowAddress :=
  ⟨rfl, rfl, by decide⟩

/-- Claim C2: for every start ≤ end (with end a u16 value), `column_address`
and `row_address` emit, after the CASET/RASET opcode byte, exactly the four
parameter bytes (start>>8, start&0xFF, (end−1)>>8, (end−1)&0xFF), where end−1
is computed with wraparound-safe (mod 2^16) subtraction. -/
theorem range_params_spec (d : Dev) (s e : Nat) (_hse : s ≤ e) (he : e < 65536) :
    column_address d s e
      = csLowIfOwned d ++ [Ev.dcLow, Ev.busWrite [Command.CASET.value]]
        ++ csLowIfOwned d
        ++ [Ev.dcHigh,
            Ev.busWrite [s >>> 8, s &&& 0xFF,
              ((e + 65536 - 1) % 65536) >>> 8, ((e + 65536 - 1) % 65536) &&& 0xFF]]
        ++ csHighIfOwned d
    ∧ row_address d s e
      = csLowIfOwned d ++ [Ev.dcLow, Ev.busWrite [Command.RASET.value]]
        ++ csLowIfOwned d
        ++ [Ev.dcHigh,
            Ev.busWrite [s >>> 8, s &&& 0xFF,
              ((e + 65536 - 1) % 65536) >>> 8, ((e + 65536 - 1) % 65536) &&& 0xFF]]
        ++ csHighIfOwned d := by
  have h1 : wrappingSub e 1 = (e + 65536 - 1) % 65536 := wrappingSub_one e he
  constructor <;> simp [column_address, row_address, command, h1, List.append_assoc]

/-- Witness for C2 at start = 0, end = 320: parameter bytes 00 00 01 3F. -/
theorem range_params_spec_witness :
    column_address ⟨false, Rotate.Rotate0, 240, 320⟩ 0 320
      = [Ev.dcLow, Ev.busWrite [Command.CASET.value],
         Ev.dcHigh, Ev.busWrite [0x00, 0x00, 0x01, 0x3F]] :=
  ((range_params_spec ⟨false, Rotate.Rotate0, 240, 320⟩ 0 320
      (by decide) (by decide)).1).trans (by decide)

/-- Claim C3, amended: for every color sequence of length N, `pixels` performs
exactly ⌈2N/4096⌉ payload bus writes after its final data/command-high
transition, and their concatenated bytes equal the big-endian two-byte
serialization of the colors with its `width * width`-byte chunks (the product
taken with u16 wraparound) in reversed order — unconditionally, for every
stored rotation, rather than in order or row-reversed in a special mode.  The
hypothesis `u16 (width * width) ≠ 0` excludes the inputs on which the Rust code
panics in `chunks(0)`. -/
theorem pixels_payload_chunks (d : Dev) (xs ys xe ye : Nat) (colors : List Nat)
    (hww : u16 (d.width * d.width) ≠ 0) :
    ∃ t, pixels d xs ys xe ye colors = Except.ok t
      ∧ (busWritesOf (afterLastDcHigh t)).length = (2 * colors.length + 4095) / 4096
      ∧ (busWritesOf (afterLastDcHigh t)).flatten
          = ((chunksList ((colors.map toBeBytes).flatten)
                (u16 (d.width * d.width))).reverse).flatten := by
  obtain ⟨t, ht, hp⟩ := pixels_payload d xs ys xe ye colors
  refine ⟨t, ht, ?_, ?_⟩
  · rw [hp, chunksList_length_4096, mergedBytes_length d colors hww]
  · rw [hp, chunksList_flatten _ _ (by omega)]
    rfl

/-- Witness for C3's amended theorem: two colors on a 3×3 panel. -/
theorem pixels_payload_chunks_witness :
    ∃ t, pixels ⟨false, Rotate.Rotate0, 3, 3⟩ 0 0 3 3 [1, 2] = Except.ok t
      ∧ (busWritesOf (afterLastDcHigh t)).length
          = (2 * ([1, 2] : List Nat).length + 4095) / 4096
      ∧ (busWritesOf (afterLastDcHigh t)).flatten
          = ((chunksList ((([1, 2] : List Nat).map toBeBytes).flatten)
                (u16 (3 * 3))).reverse).flatten :=
  pixels_payload_chunks ⟨false, Rotate.Rotate0, 3, 3⟩ 0 0 3 3 [1, 2] (by decide)

/-- Claim C3 counterexample: for nine colors on a 3×3 panel the concatenated
payload bytes equal neither the big-endian serialization in order nor its
row-reversed form (rows are 2·width = 6 bytes): the code reverses
width·width = 9-byte chunks instead. -/
theorem pixels_payload_cex :
    payloadFlat (pixels ⟨false, Rotate.Rotate0, 3, 3⟩ 0 0 3 3
        [1, 2, 3, 4, 5, 6, 7, 8, 9])
      ≠ some ((([1, 2, 3, 4, 5, 6, 7, 8, 9] : List Nat).map toBeBytes).flatten)
    ∧ payloadFlat (pixels ⟨false, Rotate.Rotate0, 3, 3⟩ 0 0 3 3
        [1, 2, 3, 4, 5, 6, 7, 8, 9])
      ≠ some (((chunksList ((([1, 2, 3, 4, 5, 6, 7, 8, 9] : List Nat).map
            toBeBytes).flatten) (2 * 3)).reverse).flatten) :=
  ⟨by decide, by decide⟩

/-- Claim C4, amended: the chunk reversal in `pixels` is not gated on the
stored rotation state used by `transfer_x_y` — the payload bus writes are
identical under every rotation — and the reversed blocks are
`width * width` bytes (u16-wrapped product), not row-sized. -/
theorem pixels_reversal_unconditional (d : Dev) (r1 r2 : Rotate)
    (xs ys xe ye : Nat) (colors : List Nat)
    (_hww : u16 (d.width * d.width) ≠ 0) :
    ∃ t1 t2,
      pixels { d with rotate := r1 } xs ys xe ye colors = Except.ok t1
      ∧ pixels { d with rotate := r2 } xs ys xe ye colors = Except.ok t2
      ∧ busWritesOf (afterLastDcHigh t1) = busWritesOf (afterLastDcHigh t2)
      ∧ (busWritesOf (afterLastDcHigh t1)).flatten
          = ((chunksList ((colors.map toBeBytes).flatten)
                (u16 (d.width * d.width))).reverse).flatten := by
  obtain ⟨t1, h1, p1⟩ := pixels_payload { d with rotate := r1 } xs ys xe ye colors
  obtain ⟨t2, h2, p2⟩ := pixels_payload { d with rotate := r2 } xs ys xe ye colors
  refine ⟨t1, t2, h1, h2, ?_, ?_⟩
  · rw [p1, p2]
    exact rfl
  · rw [p1, chunksList_flatten _ _ (by omega)]
    rfl

/-- Witness for C4's amended theorem: one color, rotations 0 and 180. -/
theorem pixels_reversal_unconditional_witness :
    ∃ t1 t2,
      pixels { (⟨false, Rotate.Rotate0, 4, 4⟩ : Dev) with rotate := Rotate.Rotate0 }
          0 0 4 4 [7] = Except.ok t1
      ∧ pixels { (⟨false, Rotate.Rotate0, 4, 4⟩ : Dev) with rotate := Rotate.Rotate180 }
          0 0 4 4 [7] = Except.ok t2
      ∧ busWritesOf (afterLastDcHigh t1) = busWritesOf (afterLastDcHigh t2)
      ∧ (busWritesOf (afterLastDcHigh t1)).flatten
          = ((chunksList ((([7] : List Nat).map toBeBytes).flatten)
                (u16 (4 * 4))).reverse).flatten :=
  pixels_reversal_unconditional ⟨false, Rotate.Rotate0, 4, 4⟩
    Rotate.Rotate0 Rotate.Rotate180 0 0 4 4 [7] (by decide)

/-- Claim C4 counterexample: on a 4×4 panel under rotation 90 with sixteen
colors, the payload equals neither the unreversed serialization nor its
row-reversed form (rows are 2·width = 8 bytes), so the reversal is neither
switched off for this rotation nor row-sized. -/
theorem pixels_rowreversal_cex :
    payloadFlat (pixels ⟨false, Rotate.Rotate90, 4, 4⟩ 0 0 4 4
        [1, 2, 3, 4, 5, 6, 7, 8, 9, 10, 11, 12, 13, 14, 15, 16])
      ≠ some ((([1, 2, 3, 4, 5, 6, 7, 8, 9, 10, 11, 12, 13, 14, 15, 16] :
          List Nat).map toBeBytes).flatten)
    ∧ payloadFlat (pixels ⟨false, Rotate.Rotate90, 4, 4⟩ 0 0 4 4
        [1, 2, 3, 4, 5, 6, 7, 8, 9, 10, 11, 12, 13, 14, 15, 16])
      ≠ some (((chunksList ((([1, 2, 3, 4, 5, 6, 7, 8, 9, 10, 11, 12, 13, 14,
            15, 16] : List Nat).map toBeBytes).flatten) (2 * 4)).reverse).flatten) :=
  ⟨by decide, by decide⟩

set_option maxHeartbeats 1000000 in
/-- Claim C5 (code bug): evaluation of `pixel(0, 0, 0xF800)` under no rotation.
The code passes end = start (not start + 1) to `address_window`, so the emitted
CASET/RASET parameter bytes are 00 00 FF FF — end − 1 wraps to 0xFFFF, a window
containing no pixel under the driver's half-open end − 1 conversion — not the
claimed single-point window (0,0)-(0,0); the two color bytes F8 00 follow. -/
theorem pixel_zero_window_eval :
    pixel ⟨false, Rotate.Rotate0, 240, 320⟩ 0 0 0xF800
      = Except.ok
          [Ev.dcLow, Ev.busWrite [0x2A], Ev.dcHigh,
           Ev.busWrite [0x00, 0x00, 0xFF, 0xFF],
           Ev.dcLow, Ev.busWrite [0x2B], Ev.dcHigh,
           Ev.busWrite [0x00, 0x00, 0xFF, 0xFF],
           Ev.dcLow, Ev.busWrite [0x2C],
           Ev.dcLow, Ev.busWrite [0x2C], Ev.dcHigh, Ev.busWrite [0xF8, 0x00]] :=
  rfl

/-- Claim C6: for every in-range logical coordinate, `transfer_x_y` returns
(x, y) under no rotation, (width − x, y) under 90°, (x, height − y) under
180°, and (width − x, height − y) under 270°, with no underflow (the wrapping
subtraction coincides with plain subtraction on this domain). -/
theorem transfer_x_y_spec (d : Dev) (x y : Nat)
    (hw : d.width < 65536) (hh : d.height < 65536)
    (hx : x < d.width) (hy : y < d.height) :
    transfer_x_y { d with rotate := Rotate.Rotate0 } x y = (x, y)
    ∧ transfer_x_y { d with rotate := Rotate.Rotate90 } x y = (d.width - x, y)
    ∧ transfer_x_y { d with rotate := Rotate.Rotate180 } x y = (x, d.height - y)
    ∧ transfer_x_y { d with rotate := Rotate.Rotate270 } x y
        = (d.width - x, d.height - y) := by
  refine ⟨rfl, ?_, ?_, ?_⟩ <;>
    simp [transfer_x_y, wrappingSub_of_le hw hx.le, wrappingSub_of_le hh hy.le]

/-- Witness for C6 on a 320×240 panel at (10, 20) under rotation 90. -/
theorem transfer_x_y_spec_witness :
    transfer_x_y ⟨false, Rotate.Rotate90, 320, 240⟩ 10 20 = (310, 20) :=
  ((transfer_x_y_spec ⟨false, Rotate.Rotate0, 320, 240⟩ 10 20
      (by decide) (by decide) (by decide) (by decide)).2.1).trans (by decide)

/-- Claim C7, amended: a zero-length range start = end = 0 is neither rejected
nor special-cased: `column_address`/`row_address` emit parameter bytes
00 00 FF FF produced by the unsigned wraparound end − 1 = 0xFFFF, and
`address_window 0 0 0 0` succeeds and emits both frames plus the RAMWR
opcode. -/
theorem zero_range_wraps (d : Dev) :
    busWritesOf (column_address d 0 0)
      = [[Command.CASET.value], [0x00, 0x00, 0xFF, 0xFF]]
    ∧ busWritesOf (row_address d 0 0)
      = [[Command.RASET.value], [0x00, 0x00, 0xFF, 0xFF]]
    ∧ address_window d 0 0 0 0
      = Except.ok (column_address d 0 0 ++ row_address d 0 0
          ++ command d .RAMWR none) := by
  refine ⟨?_, ?_, ?_⟩
  · cases hc : d.csOwned <;>
      simp [column_address, command, busWritesOf, csLowIfOwned, csHighIfOwned,
        hc, wrappingSub] <;> decide
  · cases hc : d.csOwned <;>
      simp [row_address, command, busWritesOf, csLowIfOwned, csHighIfOwned,
        hc, wrappingSub] <;> decide
  · exact address_window_ok d le_rfl le_rfl

/-- Claim C7 counterexample: at start = end = 0 the operations emit the
wraparound bytes FF FF for end − 1 and `address_window` succeeds — nothing is
rejected or special-cased. -/
theorem zero_range_cex :
    column_address ⟨false, Rotate.Rotate0, 240, 320⟩ 0 0
      = [Ev.dcLow, Ev.busWrite [0x2A], Ev.dcHigh,
         Ev.busWrite [0x00, 0x00, 0xFF, 0xFF]]
    ∧ address_window ⟨false, Rotate.Rotate0, 240, 320⟩ 0 0 0 0
      = Except.ok
          [Ev.dcLow, Ev.busWrite [0x2A], Ev.dcHigh,
           Ev.busWrite [0x00, 0x00, 0xFF, 0xFF],
           Ev.dcLow, Ev.busWrite [0x2B], Ev.dcHigh,
           Ev.busWrite [0x00, 0x00, 0xFF, 0xFF],
           Ev.dcLow, Ev.busWrite [0x2C]] :=
  ⟨rfl, rfl⟩

set_option maxHeartbeats 1000000 in
/-- Claim C8, amended: the "default orientation" preset composes to 0xA4
(BottomToTop page order 0x80, ReverseMode page/column order 0x20, RightToLeft
latch order 0x04), not the documented MADCTL reset default 0x00 that `init`
writes to the memory-access-control register; the preset whose compose value
is 0x00 is `rotate_0`. -/
theorem madctl_default_value (d : Dev) :
    MemAccCtrlConfig.default.value = 0xA4
    ∧ MemAccCtrlConfig.rotate_0.value = 0x00
    ∧ ∃ pre post, init d = pre ++ (command d .MADCTL (some [0x00]) ++ post) := by
  refine ⟨by decide, by decide, hard_reset d, init_rest d, ?_⟩
  unfold init
  rw [List.append_assoc]

/-- Claim C8 counterexample: the compose value of the default preset is not
the documented reset-default byte 0x00. -/
theorem madctl_default_cex : MemAccCtrlConfig.default.value ≠ 0x00 := by
  decide

/-- Claim C9: the framing primitive `command` performs, in this fixed order:
chip-select low (if owned), data/command select low, one bus write of the
opcode byte; with parameters present it keeps the device selected (re-asserting
chip-select low), drives data/command high, writes the parameter bytes in one
bus write, and raises chip-select (if owned); with no parameters no further
events occur — in particular the data/command line is never raised and
chip-select is never raised, leaving the device selected. -/
theorem command_framing (d : Dev) (cmd : Command) (ps : List Nat) :
    command d cmd none = csLowIfOwned d ++ [Ev.dcLow, Ev.busWrite [cmd.value]]
    ∧ Ev.dcHigh ∉ command d cmd none
    ∧ Ev.csHigh ∉ command d cmd none
    ∧ command d cmd (some ps)
        = csLowIfOwned d ++ [Ev.dcLow, Ev.busWrite [cmd.value]]
          ++ csLowIfOwned d ++ [Ev.dcHigh, Ev.busWrite ps] ++ csHighIfOwned d := by
  refine ⟨?_, ?_, ?_, ?_⟩
  · simp [command]
  · cases hc : d.csOwned <;> simp [command, csLowIfOwned, hc]
  · cases hc : d.csOwned <;> simp [command, csLowIfOwned, hc]
  · simp [command, List.append_assoc]

/-- Claim C10: `command` with a present but empty parameter slice takes the
parameters-present path — data/command is driven high, one zero-length bus
write is issued, and chip-select is raised afterwards when owned — so the
zero-length memory-write trigger `mem_write []` used by `pixels` leaves the
device deselected, and `pixels` drives chip-select low again (then
data/command high) before streaming the payload. -/
theorem mem_write_empty_deselects (d : Dev) (xs ys xe ye : Nat)
    (colors : List Nat) (h : d.csOwned = true) :
    command d .RAMWR (some [])
      = [Ev.csLow, Ev.dcLow, Ev.busWrite [Command.RAMWR.value],
         Ev.csLow, Ev.dcHigh, Ev.busWrite [], Ev.csHigh]
    ∧ mem_write d [] = command d .RAMWR (some [])
    ∧ ∃ w rest, pixels d xs ys xe ye colors
        = Except.ok (w ++ mem_write d [] ++ (Ev.csLow :: Ev.dcHigh :: rest)) := by
  refine ⟨?_, rfl, ?_⟩
  · simp [command, csLowIfOwned, csHighIfOwned, h]
  · obtain ⟨w, hw⟩ := pixels_ok d xs ys xe ye colors
    refine ⟨w, (chunksList (mergedBytes d colors) 4096).map Ev.busWrite
      ++ csHighIfOwned d, ?_⟩
    rw [hw]
    simp [csLowIfOwned, h, List.append_assoc]

/-- Witness for C10 with an owned chip-select pin. -/
theorem mem_write_empty_deselects_witness :
    command ⟨true, Rotate.Rotate0, 4, 4⟩ .RAMWR (some [])
      = [Ev.csLow, Ev.dcLow, Ev.busWrite [Command.RAMWR.value],
         Ev.csLow, Ev.dcHigh, Ev.busWrite [], Ev.csHigh] :=
  (mem_write_empty_deselects ⟨true, Rotate.Rotate0, 4, 4⟩ 0 0 1 1 [0xF800] rfl).1

end ST7789V
